import Mathlib

/-!
Shallow embedding of the User Repository / Data Access Layer of the
hoctap-api service (`database/user.go` and `database/connection.go`).

The `users` table is modelled as a list of rows together with the
AUTO_INCREMENT counter (`nextId`).  Each repository operation from
`user.go` is translated to a pure function; operations that execute SQL
writes are state-passing (`… × DBState`) so that the state after a failed
call is observable.  MySQL `CURRENT_TIMESTAMP` is modelled by an explicit
`now : Nat` argument giving the time at which the call executes.  The Go
code classifies failures by formatted error strings; here they are the
typed variants of `DbError` (`QueryError` of the spec taxonomy cannot
arise in the pure model because storage I/O never fails here).
-/

namespace HocTap

/-- A row of the `users` table (struct `User` in `user.go`). -/
structure User where
  id : Nat
  name : String
  email : String
  createdAt : Nat
  updatedAt : Nat
deriving Repr, DecidableEq

/-- The state of the `users` table: its rows in insertion order plus the
AUTO_INCREMENT counter (which MySQL starts at 1). -/
structure DBState where
  rows : List User
  nextId : Nat
deriving Repr, DecidableEq

/-- Typed counterpart of the formatted error strings of `user.go`. -/
inductive DbError where
  | notFound (id : Nat)
  | conflict (email : String)
deriving Repr, DecidableEq

/-- Helper `emailExists` of `user.go`:
`SELECT COUNT(*) FROM users WHERE email = ?`, then `count > 0`. -/
def emailExists (s : DBState) (email : String) : Bool :=
  (s.rows.filter (fun u => u.email == email)).length > 0

/-- Helper `emailExistsForOtherUser` of `user.go`:
`SELECT COUNT(*) FROM users WHERE email = ? AND id != ?`, then `count > 0`. -/
def emailExistsForOtherUser (s : DBState) (email : String) (userID : Nat) : Bool :=
  (s.rows.filter (fun u => u.email == email && u.id != userID)).length > 0

/-- `GetUserByID`: `SELECT … FROM users WHERE id = ?`; `sql.ErrNoRows`
becomes the named not-found error.  Reads do not change the state. -/
def GetUserByID (s : DBState) (id : Nat) : Except DbError User :=
  match s.rows.find? (fun u => u.id == id) with
  | some u => .ok u
  | none => .error (.notFound id)

/-- Descending insertion by `createdAt`, modelling `ORDER BY created_at DESC`
(ties are left in an unspecified relative order, as in SQL). -/
def insertByCreatedDesc (u : User) : List User → List User
  | [] => [u]
  | v :: vs => if u.createdAt ≤ v.createdAt then v :: insertByCreatedDesc u vs else u :: v :: vs

/-- `GetAllUsers`: `SELECT … FROM users ORDER BY created_at DESC`. -/
def GetAllUsers (s : DBState) : List User :=
  s.rows.foldr insertByCreatedDesc []

/-- `GetUsersCount`: `SELECT COUNT(*) FROM users`. -/
def GetUsersCount (s : DBState) : Nat :=
  s.rows.length

/-- `CreateUser`: probe `emailExists`, then
`INSERT INTO users (name, email) VALUES (?, ?)` (with `id` from
AUTO_INCREMENT and both timestamps defaulted to `CURRENT_TIMESTAMP`),
then re-read the row via `GetUserByID` on `LastInsertId`. -/
def CreateUser (s : DBState) (name email : String) (now : Nat) :
    Except DbError User × DBState :=
  if emailExists s email then
    (.error (.conflict email), s)
  else
    let u : User := ⟨s.nextId, name, email, now, now⟩
    let s' : DBState := ⟨s.rows ++ [u], s.nextId + 1⟩
    (GetUserByID s' s.nextId, s')

/-- `UpdateUser`: re-verify existence via `GetUserByID`, probe
`emailExistsForOtherUser`, then
`UPDATE users SET name = ?, email = ?, updated_at = CURRENT_TIMESTAMP WHERE id = ?`
and re-read the row. -/
def UpdateUser (s : DBState) (id : Nat) (name email : String) (now : Nat) :
    Except DbError User × DBState :=
  match GetUserByID s id with
  | .error e => (.error e, s)
  | .ok _ =>
    if emailExistsForOtherUser s email id then
      (.error (.conflict email), s)
    else
      let rows' := s.rows.map (fun u =>
        if u.id == id then { u with name := name, email := email, updatedAt := now } else u)
      let s' : DBState := ⟨rows', s.nextId⟩
      (GetUserByID s' id, s')

/-- `DeleteUser`: re-verify existence via `GetUserByID`, then
`DELETE FROM users WHERE id = ?`, then check `RowsAffected`. -/
def DeleteUser (s : DBState) (id : Nat) : Except DbError Unit × DBState :=
  match GetUserByID s id with
  | .error e => (.error e, s)
  | .ok _ =>
    let rows' := s.rows.filter (fun u => !(u.id == id))
    let rowsAffected := s.rows.length - rows'.length
    let s' : DBState := ⟨rows', s.nextId⟩
    if rowsAffected == 0 then
      (.error (.notFound id), s')
    else
      (.ok (), s')

/-- The three fixed seed rows of `SeedUsers` in `user.go`. -/
def initialUsers : List (String × String) :=
  [("John Doe", "john@example.com"),
   ("Jane Smith", "jane@example.com"),
   ("Alice Johnson", "alice@example.com")]

/-- The seeding loop of `SeedUsers`: create each entry in order, aborting
on (and surfacing) the first creation failure. -/
def seedLoop (s : DBState) (now : Nat) : List (String × String) → Except DbError DBState
  | [] => .ok s
  | (n, e) :: rest =>
    match CreateUser s n e now with
    | (.ok _, s') => seedLoop s' now rest
    | (.error err, _) => .error err

/-- `SeedUsers`: count the rows, do nothing when `count > 0`, otherwise
create the three fixed users in order. -/
def SeedUsers (s : DBState) (now : Nat) : Except DbError DBState :=
  if GetUsersCount s > 0 then .ok s else seedLoop s now initialUsers

/-- One mutating repository call, for stating invariants over call
sequences. -/
inductive Op where
  | create (name email : String) (now : Nat)
  | update (id : Nat) (name email : String) (now : Nat)
  | delete (id : Nat)
deriving Repr, DecidableEq

/-- Run one operation, keeping the post-state only on success. -/
def applyOp (s : DBState) : Op → Except DbError DBState
  | .create n e now =>
    match CreateUser s n e now with
    | (.ok _, s') => .ok s'
    | (.error err, _) => .error err
  | .update id n e now =>
    match UpdateUser s id n e now with
    | (.ok _, s') => .ok s'
    | (.error err, _) => .error err
  | .delete id =>
    match DeleteUser s id with
    | (.ok _, s') => .ok s'
    | (.error err, _) => .error err

/-- Run a sequence of operations; the sequence succeeds only if every
operation does. -/
def runOps : DBState → List Op → Except DbError DBState
  | s, [] => .ok s
  | s, op :: ops =>
    match applyOp s op with
    | .ok s' => runOps s' ops
    | .error err => .error err

/-- No two rows share an email (the storage-level UNIQUE constraint on
`email` in `createTables`). -/
def EmailUnique (s : DBState) : Prop :=
  s.rows.Pairwise (fun a b => a.email ≠ b.email)

instance (s : DBState) : Decidable (EmailUnique s) := by
  unfold EmailUnique; infer_instance

/-- Structural well-formedness every reachable table state has: `id` is a
primary key (no duplicates), every stored id is below the AUTO_INCREMENT
counter, and the counter is positive (MySQL starts it at 1). -/
def DBState.Wf (s : DBState) : Prop :=
  s.rows.Pairwise (fun a b => a.id ≠ b.id) ∧ (∀ v ∈ s.rows, v.id < s.nextId) ∧ 0 < s.nextId

instance (s : DBState) : Decidable s.Wf := by
  unfold DBState.Wf; infer_instance

/-! ### Basic lemmas about the probes and reads -/

theorem emailExists_eq_true_iff (s : DBState) (e : String) :
    emailExists s e = true ↔ ∃ v ∈ s.rows, v.email = e := by
  simp [emailExists, List.length_pos, List.filter_eq_nil_iff]

theorem emailExists_eq_false_iff (s : DBState) (e : String) :
    emailExists s e = false ↔ ∀ v ∈ s.rows, v.email ≠ e := by
  rw [← Bool.not_eq_true, not_iff_comm, emailExists_eq_true_iff]
  push_neg
  tauto

theorem emailExistsForOtherUser_eq_true_iff (s : DBState) (e : String) (id : Nat) :
    emailExistsForOtherUser s e id = true ↔ ∃ v ∈ s.rows, v.email = e ∧ v.id ≠ id := by
  simp [emailExistsForOtherUser, List.length_pos, List.filter_eq_nil_iff]

theorem getUserByID_ok_iff (s : DBState) (id : Nat) (u : User) :
    GetUserByID s id = .ok u ↔ s.rows.find? (fun v => v.id == id) = some u := by
  unfold GetUserByID
  cases h : s.rows.find? (fun v => v.id == id) <;> simp

theorem getUserByID_mem_of_ok (s : DBState) (id : Nat) (u : User)
    (h : GetUserByID s id = .ok u) : u ∈ s.rows ∧ u.id = id := by
  rw [getUserByID_ok_iff] at h
  have hm := List.mem_of_find?_eq_some h
  have hp := List.find?_some h
  simp at hp
  exact ⟨hm, hp⟩

theorem getUserByID_notFound_of_absent (s : DBState) (id : Nat)
    (h : ∀ v ∈ s.rows, v.id ≠ id) : GetUserByID s id = .error (.notFound id) := by
  unfold GetUserByID
  rw [List.find?_eq_none.mpr]
  intro x hx
  simpa using h x hx

/-- The re-read after an INSERT finds exactly the freshly inserted row,
because every pre-existing id is distinct from the new one. -/
theorem find?_append_fresh (rows : List User) (u : User)
    (h : ∀ v ∈ rows, v.id ≠ u.id) :
    (rows ++ [u]).find? (fun v => v.id == u.id) = some u := by
  rw [List.find?_append, List.find?_eq_none.mpr]
  · simp
  · intro x hx
    simpa using h x hx

/-! ### C2: create with a fresh email -/

/-- C2: for every non-empty name and non-empty email not used by any
existing user, `CreateUser` succeeds and the returned user's email and
name equal the inputs, its id is assigned and positive, and its
`created_at` equals its `updated_at`. -/
theorem createUser_fresh_email_ok (s : DBState) (name email : String) (now : Nat)
    (hwf : s.Wf) (hname : name ≠ "") (hemail : email ≠ "")
    (hfree : ∀ v ∈ s.rows, v.email ≠ email) :
    ∃ u : User, (CreateUser s name email now).1 = .ok u ∧
      u.name = name ∧ u.email = email ∧ 0 < u.id ∧ u.createdAt = u.updatedAt := by
  have hex : emailExists s email = false := (emailExists_eq_false_iff s email).mpr hfree
  refine ⟨⟨s.nextId, name, email, now, now⟩, ?_, rfl, rfl, hwf.2.2, rfl⟩
  simp only [CreateUser, hex, Bool.false_eq_true, if_false]
  rw [getUserByID_ok_iff]
  exact find?_append_fresh s.rows ⟨s.nextId, name, email, now, now⟩
    (fun v hv => Nat.ne_of_lt (hwf.2.1 v hv))

/-- Witness for C2 at a concrete state. -/
theorem createUser_fresh_email_ok_witness :
    ∃ u : User,
      (CreateUser ⟨[⟨1, "Ann", "ann@x.com", 0, 0⟩], 2⟩ "Bob" "bob@x.com" 5).1 = .ok u ∧
      u.name = "Bob" ∧ u.email = "bob@x.com" ∧ 0 < u.id ∧ u.createdAt = u.updatedAt :=
  createUser_fresh_email_ok ⟨[⟨1, "Ann", "ann@x.com", 0, 0⟩], 2⟩ "Bob" "bob@x.com" 5
    (by decide) (by decide) (by decide) (by decide)

/-! ### C3: sequential duplicate create conflicts -/

/-- C3: if `CreateUser` succeeds with email `e`, a second sequential
`CreateUser` with the same email `e` returns the conflict error. -/
theorem createUser_duplicate_conflict (s s' : DBState) (n1 n2 e : String)
    (t1 t2 : Nat) (u : User) (h1 : CreateUser s n1 e t1 = (.ok u, s')) :
    (CreateUser s' n2 e t2).1 = .error (.conflict e) := by
  by_cases hex : emailExists s e
  · simp [CreateUser, hex] at h1
  · have hs' : s' = ⟨s.rows ++ [⟨s.nextId, n1, e, t1, t1⟩], s.nextId + 1⟩ := by
      simp only [CreateUser, hex, Bool.false_eq_true, if_false, Prod.mk.injEq] at h1
      exact h1.2.symm
    have hex' : emailExists s' e = true := by
      rw [emailExists_eq_true_iff, hs']
      exact ⟨⟨s.nextId, n1, e, t1, t1⟩, by simp, rfl⟩
    simp [CreateUser, hex']

/-- Witness for C3 at a concrete state. -/
theorem createUser_duplicate_conflict_witness :
    (CreateUser ⟨[⟨1, "Ann", "ann@x.com", 5, 5⟩], 2⟩ "Bob" "ann@x.com" 6).1 =
      .error (.conflict "ann@x.com") :=
  createUser_duplicate_conflict ⟨[], 1⟩ ⟨[⟨1, "Ann", "ann@x.com", 5, 5⟩], 2⟩
    "Ann" "Bob" "ann@x.com" 5 6 ⟨1, "Ann", "ann@x.com", 5, 5⟩ rfl

/-! ### C5: update on a missing id -/

/-- C5: for every id with no matching user, `UpdateUser` returns the
not-found error for every payload, regardless of the payload's validity
or conflicts. -/
theorem updateUser_missing_id_notFound (s : DBState) (id : Nat)
    (name email : String) (now : Nat) (h : ∀ v ∈ s.rows, v.id ≠ id) :
    (UpdateUser s id name email now).1 = .error (.notFound id) := by
  have hg := getUserByID_notFound_of_absent s id h
  simp [UpdateUser, hg]

/-- Witness for C5 at a concrete state: the payload even conflicts with an
existing email and is empty, yet the result is the not-found error. -/
theorem updateUser_missing_id_notFound_witness :
    (UpdateUser ⟨[⟨1, "Ann", "ann@x.com", 0, 0⟩], 2⟩ 7 "" "ann@x.com" 5).1 =
      .error (.notFound 7) :=
  updateUser_missing_id_notFound ⟨[⟨1, "Ann", "ann@x.com", 0, 0⟩], 2⟩ 7 "" "ann@x.com" 5
    (by decide)

/-! ### C6: delete then get -/

/-- C6: a successful `DeleteUser` removes the row entirely, so a
following `GetUserByID` on the same id yields the not-found error. -/
theorem deleteUser_then_get_notFound (s s' : DBState) (id : Nat)
    (h : DeleteUser s id = (.ok (), s')) :
    GetUserByID s' id = .error (.notFound id) := by
  unfold DeleteUser at h
  cases hg : GetUserByID s id with
  | error e => rw [hg] at h; simp at h
  | ok u =>
    rw [hg] at h
    simp only at h
    have hrows : s'.rows = s.rows.filter (fun u => !(u.id == id)) := by
      split at h
      · exact absurd (congrArg Prod.fst h) (by simp)
      · have h2 := congrArg Prod.snd h
        simp only at h2
        rw [← h2]
    apply getUserByID_notFound_of_absent
    intro v hv
    rw [hrows] at hv
    have := List.of_mem_filter hv
    simpa using this

/-- Witness for C6 at a concrete state. -/
theorem deleteUser_then_get_notFound_witness :
    GetUserByID ⟨[⟨2, "Bob", "bob@x.com", 1, 1⟩], 3⟩ 1 = .error (.notFound 1) :=
  deleteUser_then_get_notFound
    ⟨[⟨1, "Ann", "ann@x.com", 0, 0⟩, ⟨2, "Bob", "bob@x.com", 1, 1⟩], 3⟩
    ⟨[⟨2, "Bob", "bob@x.com", 1, 1⟩], 3⟩ 1 rfl

/-! ### C9: count agrees with list -/

theorem insertByCreatedDesc_length (u : User) (l : List User) :
    (insertByCreatedDesc u l).length = l.length + 1 := by
  induction l with
  | nil => rfl
  | cons v vs ih =>
    unfold insertByCreatedDesc
    split <;> simp [ih]

/-- C9: in every state, `GetUsersCount` equals the length of the sequence
returned by `GetAllUsers`. -/
theorem countUsers_eq_listUsers_length (s : DBState) :
    GetUsersCount s = (GetAllUsers s).length := by
  unfold GetUsersCount GetAllUsers
  induction s.rows with
  | nil => rfl
  | cons v vs ih => simp [List.foldr, insertByCreatedDesc_length, ih]

/-! ### Preservation of well-formedness and email uniqueness -/

theorem createUser_snd_wf (s : DBState) (n e : String) (t : Nat) (hwf : s.Wf) :
    (CreateUser s n e t).2.Wf := by
  by_cases hex : emailExists s e
  · simpa [CreateUser, hex] using hwf
  · simp only [CreateUser, hex, Bool.false_eq_true, if_false]
    refine ⟨?_, ?_, ?_⟩
    · rw [List.pairwise_append]
      refine ⟨hwf.1, List.pairwise_singleton _ _, ?_⟩
      intro a ha b hb
      simp only [List.mem_singleton] at hb
      subst hb
      exact Nat.ne_of_lt (hwf.2.1 a ha)
    · intro v hv
      rcases List.mem_append.mp hv with h | h
      · exact Nat.lt_succ_of_lt (hwf.2.1 v h)
      · simp only [List.mem_singleton] at h
        subst h
        exact Nat.lt_succ_self _
    · exact Nat.lt_succ_of_lt hwf.2.2

theorem createUser_snd_emailUnique (s : DBState) (n e : String) (t : Nat)
    (hu : EmailUnique s) : EmailUnique (CreateUser s n e t).2 := by
  by_cases hex : emailExists s e
  · simpa [CreateUser, hex] using hu
  · simp only [CreateUser, hex, Bool.false_eq_true, if_false]
    unfold EmailUnique at *
    rw [List.pairwise_append]
    refine ⟨hu, List.pairwise_singleton _ _, ?_⟩
    intro a ha b hb
    simp only [List.mem_singleton] at hb
    subst hb
    exact (emailExists_eq_false_iff s e).mp (Bool.eq_false_iff.mpr hex) a ha

theorem updRow_id (id : Nat) (n e : String) (t : Nat) (u : User) :
    (if u.id == id then { u with name := n, email := e, updatedAt := t } else u).id = u.id := by
  split <;> rfl

theorem updateUser_snd_wf (s : DBState) (id : Nat) (n e : String) (t : Nat)
    (hwf : s.Wf) : (UpdateUser s id n e t).2.Wf := by
  unfold UpdateUser
  cases hg : GetUserByID s id with
  | error err => exact hwf
  | ok u =>
    by_cases hex : emailExistsForOtherUser s e id
    · simpa [hex] using hwf
    · simp only [hex, Bool.false_eq_true, if_false]
      refine ⟨?_, ?_, hwf.2.2⟩
      · rw [List.pairwise_map]
        exact hwf.1.imp (fun h => by simpa [apply_ite User.id] using h)
      · intro v hv
        obtain ⟨w, hw, rfl⟩ := List.mem_map.mp hv
        simpa [apply_ite User.id] using hwf.2.1 w hw

theorem pairwise_email_map_update (rows : List User) (id : Nat) (n e : String) (t : Nat)
    (hid : rows.Pairwise (fun a b => a.id ≠ b.id))
    (hem : rows.Pairwise (fun a b => a.email ≠ b.email))
    (hno : ∀ v ∈ rows, v.email = e → v.id = id) :
    (rows.map (fun u =>
      if u.id == id then { u with name := n, email := e, updatedAt := t } else u)).Pairwise
      (fun a b => a.email ≠ b.email) := by
  induction rows with
  | nil => simp
  | cons a l ih =>
    simp only [List.map_cons, List.pairwise_cons] at hid hem ⊢
    refine ⟨?_, ih hid.2 hem.2 (fun v hv => hno v (List.mem_cons_of_mem a hv))⟩
    intro b hb
    obtain ⟨w, hw, rfl⟩ := List.mem_map.mp hb
    by_cases ha : a.id = id
    · have hwid : w.id ≠ id := fun hc => hid.1 w hw (ha.trans hc.symm)
      have hwe : w.email ≠ e := fun hc => hwid (hno w (List.mem_cons_of_mem a hw) hc)
      simp [ha, hwid]
      exact fun hc => absurd hc.symm hwe
    · have hae : a.email ≠ e := fun hc => ha (hno a (List.mem_cons_self a l) hc)
      by_cases hwid : w.id = id
      · simpa [ha, hwid] using hae
      · simpa [ha, hwid] using hem.1 w hw

theorem updateUser_snd_emailUnique (s : DBState) (id : Nat) (n e : String) (t : Nat)
    (hwf : s.Wf) (hu : EmailUnique s) : EmailUnique (UpdateUser s id n e t).2 := by
  unfold UpdateUser
  cases hg : GetUserByID s id with
  | error err => exact hu
  | ok u =>
    by_cases hex : emailExistsForOtherUser s e id
    · simpa [hex] using hu
    · simp only [hex, Bool.false_eq_true, if_false]
      have hno : ∀ v ∈ s.rows, v.email = e → v.id = id := by
        intro v hv hve
        by_contra hvid
        exact hex ((emailExistsForOtherUser_eq_true_iff s e id).mpr ⟨v, hv, hve, hvid⟩)
      exact pairwise_email_map_update s.rows id n e t hwf.1 hu hno

theorem deleteUser_snd_wf (s : DBState) (id : Nat) (hwf : s.Wf) :
    (DeleteUser s id).2.Wf := by
  unfold DeleteUser
  cases hg : GetUserByID s id with
  | error err => exact hwf
  | ok u =>
    have hsub := List.filter_sublist (l := s.rows) (p := fun u => !(u.id == id))
    have hwf' : DBState.Wf ⟨s.rows.filter (fun u => !(u.id == id)), s.nextId⟩ :=
      ⟨hwf.1.sublist hsub, fun v hv => hwf.2.1 v (hsub.mem hv), hwf.2.2⟩
    split
    · exact hwf
    · dsimp only
      split <;> exact hwf'

theorem deleteUser_snd_emailUnique (s : DBState) (id : Nat) (hu : EmailUnique s) :
    EmailUnique (DeleteUser s id).2 := by
  unfold DeleteUser
  cases hg : GetUserByID s id with
  | error err => exact hu
  | ok u =>
    have hsub := List.filter_sublist (l := s.rows) (p := fun u => !(u.id == id))
    have hu' : EmailUnique ⟨s.rows.filter (fun u => !(u.id == id)), s.nextId⟩ :=
      hu.sublist hsub
    split
    · exact hu
    · dsimp only
      split <;> exact hu'

theorem applyOp_preserves (s s' : DBState) (op : Op) (hwf : s.Wf) (hu : EmailUnique s)
    (h : applyOp s op = .ok s') : s'.Wf ∧ EmailUnique s' := by
  cases op with
  | create n e t =>
    have hw := createUser_snd_wf s n e t hwf
    have he := createUser_snd_emailUnique s n e t hu
    simp only [applyOp] at h
    rcases hc : CreateUser s n e t with ⟨fst, snd⟩
    rw [hc] at h hw he
    cases fst with
    | error err => simp at h
    | ok u => simp only [Except.ok.injEq] at h; subst h; exact ⟨hw, he⟩
  | update id n e t =>
    have hw := updateUser_snd_wf s id n e t hwf
    have he := updateUser_snd_emailUnique s id n e t hwf hu
    simp only [applyOp] at h
    rcases hc : UpdateUser s id n e t with ⟨fst, snd⟩
    rw [hc] at h hw he
    cases fst with
    | error err => simp at h
    | ok u => simp only [Except.ok.injEq] at h; subst h; exact ⟨hw, he⟩
  | delete id =>
    have hw := deleteUser_snd_wf s id hwf
    have he := deleteUser_snd_emailUnique s id hu
    simp only [applyOp] at h
    rcases hc : DeleteUser s id with ⟨fst, snd⟩
    rw [hc] at h hw he
    cases fst with
    | error err => simp at h
    | ok u => simp only [Except.ok.injEq] at h; subst h; exact ⟨hw, he⟩

theorem runOps_preserves (ops : List Op) : ∀ s s' : DBState, s.Wf → EmailUnique s →
    runOps s ops = .ok s' → s'.Wf ∧ EmailUnique s' := by
  induction ops with
  | nil =>
    intro s s' hw hu h
    simp only [runOps, Except.ok.injEq] at h
    subst h
    exact ⟨hw, hu⟩
  | cons op ops ih =>
    intro s s' hw hu h
    unfold runOps at h
    cases ha : applyOp s op with
    | error err => rw [ha] at h; simp at h
    | ok s1 =>
      rw [ha] at h
      obtain ⟨hw1, hu1⟩ := applyOp_preserves s s1 op hw hu ha
      exact ih s1 s' hw1 hu1 h

/-! ### C1: email uniqueness is an invariant -/

/-- C1: starting from any well-formed state in which no two users share an
email, after any successful sequence of create, update and delete
operations no two rows share the same email. -/
theorem emailUnique_invariant (s s' : DBState) (ops : List Op)
    (hwf : s.Wf) (huniq : EmailUnique s) (h : runOps s ops = .ok s') :
    EmailUnique s' :=
  (runOps_preserves ops s s' hwf huniq h).2

/-- Witness for C1: a concrete run of two creates, an update and a
delete, starting from the empty table. -/
theorem emailUnique_invariant_witness :
    EmailUnique ⟨[⟨1, "A2", "c@x", 1, 3⟩], 3⟩ :=
  emailUnique_invariant ⟨[], 1⟩ ⟨[⟨1, "A2", "c@x", 1, 3⟩], 3⟩
    [.create "A" "a@x" 1, .create "B" "b@x" 2, .update 1 "A2" "c@x" 3, .delete 2]
    (by decide) (by decide) rfl

/-! ### The re-read after an UPDATE -/

theorem find?_map_update (rows : List User) (id : Nat) (n e : String) (t : Nat) :
    (rows.map (fun u =>
      if u.id == id then { u with name := n, email := e, updatedAt := t } else u)).find?
        (fun v => v.id == id) =
      (rows.find? (fun v => v.id == id)).map
        (fun u => if u.id == id then { u with name := n, email := e, updatedAt := t } else u) := by
  rw [List.find?_map]
  have hcomp : ((fun v : User => v.id == id) ∘ fun u =>
      if u.id == id then { u with name := n, email := e, updatedAt := t } else u) =
      (fun v : User => v.id == id) := by
    funext v
    simp [Function.comp, apply_ite User.id]
  rw [hcomp]

theorem getUserByID_ne_conflict (s : DBState) (id : Nat) (e : String) :
    GetUserByID s id ≠ .error (.conflict e) := by
  unfold GetUserByID
  cases s.rows.find? (fun v => v.id == id) <;> simp

/-- If the target row exists and no other row holds its email, the update
that re-submits the row's own email succeeds and returns the rewritten
row. -/
theorem updateUser_own_email_ok (s : DBState) (id : Nat) (name : String) (now : Nat)
    (u : User) (huniq : EmailUnique s) (hu : GetUserByID s id = .ok u) :
    (UpdateUser s id name u.email now).1 =
      .ok { u with name := name, email := u.email, updatedAt := now } := by
  have hmem := getUserByID_mem_of_ok s id u hu
  have hsymm : Symmetric (fun a b : User => a.email ≠ b.email) :=
    fun a b h hc => h hc.symm
  have hno : emailExistsForOtherUser s u.email id = false := by
    rw [Bool.eq_false_iff]
    intro hex
    obtain ⟨v, hv, hve, hvid⟩ := (emailExistsForOtherUser_eq_true_iff s u.email id).mp hex
    have hvu : v ≠ u := fun hc => hvid (hc ▸ hmem.2)
    exact huniq.forall hsymm hv hmem.1 hvu hve
  unfold UpdateUser
  rw [hu]
  dsimp only
  simp only [hno, Bool.false_eq_true, if_false]
  rw [getUserByID_ok_iff, find?_map_update]
  rw [getUserByID_ok_iff] at hu
  rw [hu]
  simp [hmem.2]

/-! ### C8: update that keeps the current email -/

/-- C8: for an existing user, a successful update that passes the user's
current email and a new name leaves the stored email unchanged and, the
call happening strictly after the prior write (`CURRENT_TIMESTAMP` has
advanced), sets `updated_at` strictly greater than the prior value. -/
theorem updateUser_keep_email (s : DBState) (id : Nat) (name : String) (now : Nat)
    (u : User) (huniq : EmailUnique s) (hu : GetUserByID s id = .ok u)
    (hclock : u.updatedAt < now) :
    ∃ u', (UpdateUser s id name u.email now).1 = .ok u' ∧
      u'.email = u.email ∧ u'.name = name ∧ u.updatedAt < u'.updatedAt :=
  ⟨{ u with name := name, email := u.email, updatedAt := now },
    updateUser_own_email_ok s id name now u huniq hu, rfl, rfl, hclock⟩

/-- Witness for C8 at a concrete state. -/
theorem updateUser_keep_email_witness :
    ∃ u', (UpdateUser ⟨[⟨1, "Ann", "ann@x.com", 0, 0⟩], 2⟩ 1 "Ann K." "ann@x.com" 5).1 =
        .ok u' ∧
      u'.email = "ann@x.com" ∧ u'.name = "Ann K." ∧ 0 < u'.updatedAt :=
  updateUser_keep_email ⟨[⟨1, "Ann", "ann@x.com", 0, 0⟩], 2⟩ 1 "Ann K." 5
    ⟨1, "Ann", "ann@x.com", 0, 0⟩ (by decide) rfl (by decide)

/-! ### C4: when the update conflicts -/

/-- C4 as stated is false on the code: with a single user of id 1 holding
email `ann@x.com`, the call `UpdateUser 2 "Bob" "ann@x.com"` targets an
email in use by a different id (1 ≠ 2), yet it returns the not-found
error, because the existence check precedes the conflict check. -/
theorem updateUser_conflict_iff_cex :
    (∃ v ∈ (⟨[⟨1, "Ann", "ann@x.com", 0, 0⟩], 2⟩ : DBState).rows,
        v.email = "ann@x.com" ∧ v.id ≠ 2) ∧
      (UpdateUser ⟨[⟨1, "Ann", "ann@x.com", 0, 0⟩], 2⟩ 2 "Bob" "ann@x.com" 5).1 ≠
        .error (.conflict "ann@x.com") := by
  constructor
  · exact ⟨⟨1, "Ann", "ann@x.com", 0, 0⟩, by simp, rfl, by decide⟩
  · intro h
    rw [show (UpdateUser ⟨[⟨1, "Ann", "ann@x.com", 0, 0⟩], 2⟩ 2 "Bob" "ann@x.com" 5).1 =
        .error (.notFound 2) from rfl] at h
    simp at h

/-- C4 amended: for an id that does exist, `UpdateUser` returns the
conflict error exactly when the email is in use by a user with a
different id; in particular, updating an existing user while keeping the
user's own current email succeeds. -/
theorem updateUser_conflict_iff (s : DBState) (id : Nat) (name email : String)
    (now : Nat) (u : User) (huniq : EmailUnique s) (hu : GetUserByID s id = .ok u) :
    ((UpdateUser s id name email now).1 = .error (.conflict email) ↔
      ∃ v ∈ s.rows, v.email = email ∧ v.id ≠ id) ∧
    ∃ u', (UpdateUser s id name u.email now).1 = .ok u' := by
  refine ⟨?_, ⟨_, updateUser_own_email_ok s id name now u huniq hu⟩⟩
  unfold UpdateUser
  rw [hu]
  dsimp only
  by_cases hex : emailExistsForOtherUser s email id
  · simp only [hex, if_true]
    exact iff_of_true (by trivial) ((emailExistsForOtherUser_eq_true_iff s email id).mp hex)
  · simp only [hex, Bool.false_eq_true, if_false]
    refine iff_of_false ?_ ?_
    · exact getUserByID_ne_conflict _ id email
    · intro hcon
      exact hex ((emailExistsForOtherUser_eq_true_iff s email id).mpr hcon)

/-- Witness for the amended C4 at a concrete state. -/
theorem updateUser_conflict_iff_witness :
    ((UpdateUser ⟨[⟨1, "Ann", "ann@x.com", 0, 0⟩], 2⟩ 1 "Ann K." "bob@x.com" 5).1 =
        .error (.conflict "bob@x.com") ↔
      ∃ v ∈ (⟨[⟨1, "Ann", "ann@x.com", 0, 0⟩], 2⟩ : DBState).rows,
        v.email = "bob@x.com" ∧ v.id ≠ 1) ∧
    ∃ u', (UpdateUser ⟨[⟨1, "Ann", "ann@x.com", 0, 0⟩], 2⟩ 1 "Ann K." "ann@x.com" 5).1 =
      .ok u' :=
  updateUser_conflict_iff ⟨[⟨1, "Ann", "ann@x.com", 0, 0⟩], 2⟩ 1 "Ann K." "bob@x.com" 5
    ⟨1, "Ann", "ann@x.com", 0, 0⟩ (by decide) rfl

/-! ### C7: seeding -/

/-- C7: from a state with zero users, `SeedUsers` creates exactly the
three fixed named users; a second run is a no-op (the count stays at 3
and no conflict error surfaces), and in general `SeedUsers` runs its
creation loop only when the user count is zero. -/
theorem seedUsers_spec (s : DBState) (now now2 : Nat) (h0 : s.rows = []) :
    ∃ s', SeedUsers s now = .ok s' ∧
      GetUsersCount s' = 3 ∧
      s'.rows.map (fun u => (u.name, u.email)) = initialUsers ∧
      SeedUsers s' now2 = .ok s' ∧
      ∀ t : DBState, 0 < GetUsersCount t → SeedUsers t now = .ok t := by
  obtain ⟨rows, k⟩ := s
  simp only at h0
  subst h0
  have hk1 : (k == k + 1) = false := by
    simp [Nat.ne_of_lt (Nat.lt_succ_self k)]
  have hk2 : (k == k + 2) = false := by
    simp only [beq_eq_false_iff_ne]
    omega
  have h12 : (k + 1 == k + 2) = false := by
    simp only [beq_eq_false_iff_ne]
    omega
  refine ⟨⟨[⟨k, "John Doe", "john@example.com", now, now⟩,
      ⟨k + 1, "Jane Smith", "jane@example.com", now, now⟩,
      ⟨k + 2, "Alice Johnson", "alice@example.com", now, now⟩], k + 3⟩,
    ?_, rfl, rfl, rfl, ?_⟩
  · have h1 : CreateUser ⟨[], k⟩ "John Doe" "john@example.com" now =
        (.ok ⟨k, "John Doe", "john@example.com", now, now⟩,
          ⟨[⟨k, "John Doe", "john@example.com", now, now⟩], k + 1⟩) := by
      simp [CreateUser, emailExists, GetUserByID]
    have h2 : CreateUser ⟨[⟨k, "John Doe", "john@example.com", now, now⟩], k + 1⟩
          "Jane Smith" "jane@example.com" now =
        (.ok ⟨k + 1, "Jane Smith", "jane@example.com", now, now⟩,
          ⟨[⟨k, "John Doe", "john@example.com", now, now⟩,
            ⟨k + 1, "Jane Smith", "jane@example.com", now, now⟩], k + 2⟩) := by
      simp [CreateUser, emailExists, GetUserByID, List.find?, hk1]
    have h3 : CreateUser ⟨[⟨k, "John Doe", "john@example.com", now, now⟩,
            ⟨k + 1, "Jane Smith", "jane@example.com", now, now⟩], k + 2⟩
          "Alice Johnson" "alice@example.com" now =
        (.ok ⟨k + 2, "Alice Johnson", "alice@example.com", now, now⟩,
          ⟨[⟨k, "John Doe", "john@example.com", now, now⟩,
            ⟨k + 1, "Jane Smith", "jane@example.com", now, now⟩,
            ⟨k + 2, "Alice Johnson", "alice@example.com", now, now⟩], k + 3⟩) := by
      simp [CreateUser, emailExists, GetUserByID, List.find?, hk2, h12]
    simp [SeedUsers, GetUsersCount, initialUsers, seedLoop, h1, h2, h3]
  · intro t ht
    simp only [SeedUsers, if_pos ht]

/-- Witness for C7 from the empty initial state. -/
theorem seedUsers_spec_witness :
    ∃ s', SeedUsers ⟨[], 1⟩ 7 = .ok s' ∧
      GetUsersCount s' = 3 ∧
      s'.rows.map (fun u => (u.name, u.email)) = initialUsers ∧
      SeedUsers s' 9 = .ok s' ∧
      ∀ t : DBState, 0 < GetUsersCount t → SeedUsers t 7 = .ok t :=
  seedUsers_spec ⟨[], 1⟩ 7 9 rfl

/-! ### C10: named errors leave the table unchanged -/

/-- C10: whenever `CreateUser` returns the conflict error, or
`UpdateUser` returns any named error, or `DeleteUser` returns the
not-found error, the post-state equals the pre-state. -/
theorem named_error_atomicity (s : DBState) (id : Nat) (name email : String) (now : Nat) :
    ((CreateUser s name email now).1 = .error (.conflict email) →
      (CreateUser s name email now).2 = s) ∧
    (∀ err : DbError, (UpdateUser s id name email now).1 = .error err →
      (UpdateUser s id name email now).2 = s) ∧
    ((DeleteUser s id).1 = .error (.notFound id) → (DeleteUser s id).2 = s) := by
  refine ⟨?_, ?_, ?_⟩
  · intro h
    by_cases hex : emailExists s email
    · simp [CreateUser, hex]
    · exfalso
      simp only [CreateUser, hex, Bool.false_eq_true, if_false] at h
      exact getUserByID_ne_conflict _ s.nextId email h
  · intro err h
    unfold UpdateUser at h ⊢
    cases hg : GetUserByID s id with
    | error e => rfl
    | ok u =>
      rw [hg] at h
      dsimp only at h ⊢
      by_cases hex : emailExistsForOtherUser s email id
      · simp [hex]
      · exfalso
        simp only [hex, Bool.false_eq_true, if_false] at h
        rw [getUserByID_ok_iff] at hg
        have hok : GetUserByID ⟨s.rows.map (fun u =>
            if u.id == id then { u with name := name, email := email, updatedAt := now }
            else u), s.nextId⟩ id = .ok (if u.id == id
              then { u with name := name, email := email, updatedAt := now } else u) := by
          rw [getUserByID_ok_iff]
          dsimp only
          rw [find?_map_update, hg]
          rfl
        rw [hok] at h
        simp at h
  · intro h
    unfold DeleteUser at h ⊢
    cases hg : GetUserByID s id with
    | error e => rfl
    | ok u =>
      rw [hg] at h
      dsimp only at h ⊢
      by_cases haff : (s.rows.length - (s.rows.filter (fun u => !(u.id == id))).length == 0) = true
      · rw [if_pos haff]
        have hle := List.length_filter_le (fun u => !(u.id == id)) s.rows
        have heq : (s.rows.filter (fun u => !(u.id == id))).length = s.rows.length := by
          have h0 : s.rows.length - (s.rows.filter (fun u => !(u.id == id))).length = 0 := by
            simpa using haff
          omega
        have hfe : s.rows.filter (fun u => !(u.id == id)) = s.rows :=
          (List.filter_sublist s.rows).eq_of_length heq
        rw [hfe]
      · rw [if_neg haff] at h
        simp at h

/-- Witness for C10: each named-error path at a concrete one-row state. -/
theorem named_error_atomicity_witness :
    (CreateUser ⟨[⟨1, "Ann", "ann@x.com", 0, 0⟩], 2⟩ "Bob" "ann@x.com" 5).2 =
        ⟨[⟨1, "Ann", "ann@x.com", 0, 0⟩], 2⟩ ∧
    (UpdateUser ⟨[⟨1, "Ann", "ann@x.com", 0, 0⟩], 2⟩ 9 "Bob" "ann@x.com" 5).2 =
        ⟨[⟨1, "Ann", "ann@x.com", 0, 0⟩], 2⟩ ∧
    (DeleteUser ⟨[⟨1, "Ann", "ann@x.com", 0, 0⟩], 2⟩ 9).2 =
        ⟨[⟨1, "Ann", "ann@x.com", 0, 0⟩], 2⟩ :=
  ⟨(named_error_atomicity ⟨[⟨1, "Ann", "ann@x.com", 0, 0⟩], 2⟩ 9 "Bob" "ann@x.com" 5).1 rfl,
   (named_error_atomicity ⟨[⟨1, "Ann", "ann@x.com", 0, 0⟩], 2⟩ 9 "Bob" "ann@x.com" 5).2.1
     (.notFound 9) rfl,
   (named_error_atomicity ⟨[⟨1, "Ann", "ann@x.com", 0, 0⟩], 2⟩ 9 "Bob" "ann@x.com" 5).2.2 rfl⟩

end HocTap
